import Mathlib

/-!
# Verification of the fund-strategy backtesting repository

Shallow embedding of the nine strategy state machines of the repository
(one `bt.Strategy` subclass per file, all sharing the same simulation
substrate) together with the account-ledger / order-lifecycle behaviour
they rely on.  Prices and cash are rationals; Python's `float('inf')`
initial value of the anchored-low tracker is represented by `none` in an
`Option ℚ`.  Each `next` method is translated line by line from the
corresponding Python `next`; each `notify_order` from the corresponding
`notify_order`.  The broker-side fill arithmetic (commission, sizing,
rejection) is not part of the repository's own files and is modelled from
the specification, clearly marked below.
-/

namespace FundStrategyCn

/-- A calendar date as exposed by the data feed (`self.data.datetime.date()`). -/
structure SimDate where
  year : Nat
  month : Nat
  day : Nat
deriving DecidableEq

/-- The distinct reasons under which a strategy issues `self.close()`, mirroring
the distinct log messages printed at each branch of the sources. -/
inductive CloseReason
  | exitSignal
  | initialProfit
  | cycleProfit
  | cycleLoss
  | profitTarget
  | stopLoss
  | takeProfit
deriving DecidableEq

/-- An order intent produced by a strategy step: `buy` is `self.buy()` (size left
to the configured sizer), `buySize` is `self.buy(size=...)`, `close` is
`self.close()` (full exit) tagged with the branch that issued it. -/
inductive Action
  | buy
  | buySize (size : ℚ)
  | close (reason : CloseReason)
deriving DecidableEq

/-- The strategy-visible outcome of an order, as delivered to `notify_order`:
`pending` covers the pass-through `Submitted`/`Accepted` statuses, `failed`
covers `Canceled`/`Margin`/`Rejected`. -/
inductive OrderEvent
  | pending
  | completedBuy (fillPrice : ℚ)
  | completedSell (fillPrice : ℚ)
  | failed
deriving DecidableEq

/-! ## Variant 1: dual moving-average crossover (`DualMACrossoverStrategy`)

Indicator values (the crossover sign) are inputs, per the spec's external
Indicator Engine. -/

namespace DualMACrossoverStrategy

structure State where
  order : Option Action
deriving DecidableEq

/-- `DualMACrossoverStrategy.next`: skip while an order is in flight; long and
dead cross → close; flat and golden cross → buy. -/
def next (s : State) (hasPosition : Bool) (crossover : ℚ) : State × Option Action :=
  if s.order.isSome then (s, none)
  else if hasPosition then
    if crossover < 0 then
      ({ s with order := some (.close .exitSignal) }, some (.close .exitSignal))
    else (s, none)
  else
    if crossover > 0 then ({ s with order := some .buy }, some .buy)
    else (s, none)

end DualMACrossoverStrategy

/-! ## Variant 4: Bollinger-band reversal (`BollingerBandsStrategy`) -/

namespace BollingerBandsStrategy

structure State where
  order : Option Action
deriving DecidableEq

/-- `BollingerBandsStrategy.next`: flat and close ≤ bottom band → buy; long and
close ≥ middle band → close. -/
def next (s : State) (hasPosition : Bool) (close bbandBot bbandMid : ℚ) :
    State × Option Action :=
  if s.order.isSome then (s, none)
  else if !hasPosition then
    if close ≤ bbandBot then ({ s with order := some .buy }, some .buy)
    else (s, none)
  else
    if close ≥ bbandMid then
      ({ s with order := some (.close .exitSignal) }, some (.close .exitSignal))
    else (s, none)

end BollingerBandsStrategy

/-! ## Variant 6: MACD trend following (`MacdStrategy`) -/

namespace MacdStrategy

structure State where
  order : Option Action
deriving DecidableEq

/-- `MacdStrategy.next`: flat and MACD/signal crossover positive → buy; long and
crossover negative → close. -/
def next (s : State) (hasPosition : Bool) (crossover : ℚ) : State × Option Action :=
  if s.order.isSome then (s, none)
  else if !hasPosition then
    if crossover > 0 then ({ s with order := some .buy }, some .buy)
    else (s, none)
  else
    if crossover < 0 then
      ({ s with order := some (.close .exitSignal) }, some (.close .exitSignal))
    else (s, none)

end MacdStrategy

/-! ## Variant 7: dual confirmation, trend MA + RSI (`DualConfirmationStrategy`) -/

namespace DualConfirmationStrategy

structure State where
  order : Option Action
deriving DecidableEq

/-- `DualConfirmationStrategy.next`: flat and (close > trend MA and RSI ≤ lower
threshold) → buy; long and close ≤ trend MA → close. -/
def next (s : State) (hasPosition : Bool) (close trendMa rsi rsiLower : ℚ) :
    State × Option Action :=
  if s.order.isSome then (s, none)
  else if !hasPosition then
    if close > trendMa ∧ rsi ≤ rsiLower then ({ s with order := some .buy }, some .buy)
    else (s, none)
  else
    if close ≤ trendMa then
      ({ s with order := some (.close .exitSignal) }, some (.close .exitSignal))
    else (s, none)

end DualConfirmationStrategy

/-! ## Variant 8: fixed-percentage breakout/rebuy (`FixedPercentageStrategy`) -/

namespace FixedPercentageStrategy

structure Params where
  profit_pct : ℚ
  loss_pct : ℚ
  rebuy_pct : ℚ
deriving DecidableEq

structure State where
  order : Option Action
  last_sell_price : ℚ
deriving DecidableEq

/-- `FixedPercentageStrategy.__init__`: no order in flight, `last_sell_price = 0.0`. -/
def initState : State := { order := none, last_sell_price := 0 }

/-- `FixedPercentageStrategy.notify_order`: on a completed sell, record the raw
fill price into `last_sell_price`; every terminal status clears the in-flight
order; `Submitted`/`Accepted` are pass-through. -/
def notify_order (s : State) (e : OrderEvent) : State :=
  match e with
  | .pending => s
  | .completedBuy _ => { s with order := none }
  | .completedSell fillPrice =>
      { s with last_sell_price := fillPrice, order := none }
  | .failed => { s with order := none }

/-- `FixedPercentageStrategy.next`.  `pos` is `some buy_price` when
`self.position` is open (with its average cost), `none` when flat. -/
def next (p : Params) (s : State) (pos : Option ℚ) (price : ℚ) :
    State × Option Action :=
  if s.order.isSome then (s, none)
  else
    match pos with
    | some buy_price =>
        let profit_target_price := buy_price * (1 + p.profit_pct)
        let stop_loss_price := buy_price * (1 - p.loss_pct)
        if price ≥ profit_target_price then
          ({ s with order := some (.close .profitTarget) }, some (.close .profitTarget))
        else if price ≤ stop_loss_price then
          ({ s with order := some (.close .stopLoss) }, some (.close .stopLoss))
        else (s, none)
    | none =>
        if s.last_sell_price = 0 then ({ s with order := some .buy }, some .buy)
        else
          let rebuy_up_price := s.last_sell_price * (1 + p.rebuy_pct)
          let rebuy_down_price := s.last_sell_price * (1 - p.rebuy_pct)
          if price ≥ rebuy_up_price then ({ s with order := some .buy }, some .buy)
          else if price ≤ rebuy_down_price then ({ s with order := some .buy }, some .buy)
          else (s, none)

end FixedPercentageStrategy

/-! ## Variant 10: anchored-low cycling (`AnchorLowStrategy`) -/

namespace AnchorLowStrategy

structure Params where
  initial_profit : ℚ
  cycle_profit : ℚ
  cycle_loss : ℚ
  rebuy_trigger : ℚ
deriving DecidableEq

/-- `historical_low` is initialised to `float('inf')`, represented by `none`. -/
structure State where
  order : Option Action
  strategy_phase : Nat
  historical_low : Option ℚ
deriving DecidableEq

/-- `AnchorLowStrategy.__init__`: no order, phase 1, historical low at infinity. -/
def initState : State := { order := none, strategy_phase := 1, historical_low := none }

/-- The per-bar update `if current_price < self.historical_low: self.historical_low
= current_price`, returning the (always finite) new tracked low. -/
def updLow : Option ℚ → ℚ → ℚ
  | none, price => price
  | some l, price => if price < l then price else l

/-- `AnchorLowStrategy.notify_order`: a completed sell while in phase 1 moves the
strategy to phase 2; every terminal status clears the in-flight order. -/
def notify_order (s : State) (e : OrderEvent) : State :=
  match e with
  | .pending => s
  | .completedBuy _ => { s with order := none }
  | .completedSell _ =>
      { s with
        strategy_phase := if s.strategy_phase = 1 then 2 else s.strategy_phase,
        order := none }
  | .failed => { s with order := none }

/-- `AnchorLowStrategy.next`: skip while an order is in flight; update the
historical low; phase 1 buys unconditionally when flat and exits at the initial
profit target; phase 2 rebuys near the historical low and exits at the cycle
profit target or cycle stop loss (profit checked first). -/
def next (p : Params) (s : State) (pos : Option ℚ) (price : ℚ) :
    State × Option Action :=
  if s.order.isSome then (s, none)
  else
    let low := updLow s.historical_low price
    let s1 : State := { s with historical_low := some low }
    if s1.strategy_phase = 1 then
      match pos with
      | none => ({ s1 with order := some .buy }, some .buy)
      | some buy_price =>
          let profit_target_price := buy_price * (1 + p.initial_profit)
          if price ≥ profit_target_price then
            ({ s1 with order := some (.close .initialProfit) }, some (.close .initialProfit))
          else (s1, none)
    else if s1.strategy_phase = 2 then
      match pos with
      | none =>
          let rebuy_trigger_price := low * (1 + p.rebuy_trigger)
          if price ≤ rebuy_trigger_price then
            ({ s1 with order := some .buy }, some .buy)
          else (s1, none)
      | some buy_price =>
          let profit_target_price := buy_price * (1 + p.cycle_profit)
          let stop_loss_price := buy_price * (1 - p.cycle_loss)
          if price ≥ profit_target_price then
            ({ s1 with order := some (.close .cycleProfit) }, some (.close .cycleProfit))
          else if price ≤ stop_loss_price then
            ({ s1 with order := some (.close .cycleLoss) }, some (.close .cycleLoss))
          else (s1, none)
    else (s1, none)

end AnchorLowStrategy

/-! ## Variant 9: plain periodic investment (`FixedAutoInvestStrategy`) -/

namespace FixedAutoInvestStrategy

structure Params where
  investment_day : Nat
  investment_amount : ℚ
deriving DecidableEq

/-- `last_investment_month` is initialised to `-1`, hence an `Int`. -/
structure State where
  order : Option Action
  last_investment_month : Int
deriving DecidableEq

/-- `FixedAutoInvestStrategy.__init__`. -/
def initState : State := { order := none, last_investment_month := -1 }

/-- `FixedAutoInvestStrategy.notify_order`: terminal statuses clear the order;
no other strategy state exists to update. -/
def notify_order (s : State) (e : OrderEvent) : State :=
  match e with
  | .pending => s
  | _ => { s with order := none }

/-- `FixedAutoInvestStrategy.next`: when the month differs from the last invested
month and the day has reached the configured investment day, first record the
month, then buy `investment_amount / price` only if cash strictly exceeds the
amount. -/
def next (p : Params) (s : State) (d : SimDate) (price cash : ℚ) :
    State × Option Action :=
  if s.order.isSome then (s, none)
  else if (d.month : Int) ≠ s.last_investment_month ∧ d.day ≥ p.investment_day then
    let s1 : State := { s with last_investment_month := (d.month : Int) }
    if cash > p.investment_amount then
      let size_to_buy := p.investment_amount / price
      ({ s1 with order := some (.buySize size_to_buy) }, some (.buySize size_to_buy))
    else (s1, none)
  else (s, none)

end FixedAutoInvestStrategy

/-! ## Variant 3: MA-gated pure periodic investment (`SmartAciOnlyStrategy`) -/

namespace SmartAciOnlyStrategy

structure Params where
  investment_day : Nat
  base_investment : ℚ
deriving DecidableEq

structure State where
  order : Option Action
  last_investment_month : Int
deriving DecidableEq

/-- `SmartAciOnlyStrategy.__init__`. -/
def initState : State := { order := none, last_investment_month := -1 }

/-- `SmartAciOnlyStrategy.notify_order`: terminal statuses clear the order. -/
def notify_order (s : State) (e : OrderEvent) : State :=
  match e with
  | .pending => s
  | _ => { s with order := none }

/-- `SmartAciOnlyStrategy.next`: same monthly gate, recording the month first;
the buy additionally requires the price below the baseline MA and cash strictly
above the base investment. -/
def next (p : Params) (s : State) (d : SimDate) (price maBaseline cash : ℚ) :
    State × Option Action :=
  if s.order.isSome then (s, none)
  else if (d.month : Int) ≠ s.last_investment_month ∧ d.day ≥ p.investment_day then
    let s1 : State := { s with last_investment_month := (d.month : Int) }
    if price < maBaseline then
      if cash > p.base_investment then
        let size_to_buy := p.base_investment / price
        ({ s1 with order := some (.buySize size_to_buy) }, some (.buySize size_to_buy))
      else (s1, none)
    else (s1, none)
  else (s, none)

end SmartAciOnlyStrategy

/-! ## Variant 2: periodic investment + take profit (`SmartAciAndTakeProfitStrategy`) -/

namespace SmartAciAndTakeProfitStrategy

structure Params where
  take_profit_pct : ℚ
  investment_day : Nat
  base_investment : ℚ
deriving DecidableEq

structure State where
  order : Option Action
  last_investment_month : Int
deriving DecidableEq

/-- `SmartAciAndTakeProfitStrategy.__init__`. -/
def initState : State := { order := none, last_investment_month := -1 }

/-- `SmartAciAndTakeProfitStrategy.notify_order`: terminal statuses clear the
order. -/
def notify_order (s : State) (e : OrderEvent) : State :=
  match e with
  | .pending => s
  | _ => { s with order := none }

/-- `SmartAciAndTakeProfitStrategy.next`: while long, sell the whole position
and return as soon as the holding gain reaches the take-profit percentage;
otherwise, while flat, run the monthly gate (recording the month first) and buy
`base_investment / price` when the price is below the baseline MA — with no cash
check. -/
def next (p : Params) (s : State) (pos : Option ℚ) (d : SimDate)
    (price maBaseline : ℚ) : State × Option Action :=
  if s.order.isSome then (s, none)
  else
    match pos with
    | some buy_price =>
        let profit_pct := (price - buy_price) / buy_price
        if profit_pct ≥ p.take_profit_pct then
          ({ s with order := some (.close .takeProfit) }, some (.close .takeProfit))
        else (s, none)
    | none =>
        if (d.month : Int) ≠ s.last_investment_month ∧ d.day ≥ p.investment_day then
          let s1 : State := { s with last_investment_month := (d.month : Int) }
          if price < maBaseline then
            let size_to_buy := p.base_investment / price
            ({ s1 with order := some (.buySize size_to_buy) }, some (.buySize size_to_buy))
          else (s1, none)
        else (s, none)

end SmartAciAndTakeProfitStrategy

/-! ## Account ledger and order lifecycle

The broker that executes the strategies' orders lives in the backtesting
library, not in this repository's files; the definitions of this section are
therefore modelled from the specification (account ledger, order lifecycle
manager, simulation driver). -/

/-- Modelled from the spec: the Account Ledger — cash balance, long-only
position quantity and average cost basis; the commission rate and sizing
policy are configuration passed alongside. -/
structure Broker where
  cash : ℚ
  qty : ℚ
  avg_cost : ℚ
deriving DecidableEq

/-- The position handed to a strategy step: `some` of the average cost while
the quantity is positive, `none` when flat. -/
def Broker.position (b : Broker) : Option ℚ :=
  if 0 < b.qty then some b.avg_cost else none

/-- Modelled from the spec: a completed buy fill of `size` units at `price`
under commission rate `c` — commission is applied to the trade notional and
deducted from cash at fill time; the cost basis becomes the weighted average. -/
def Broker.applyBuy (b : Broker) (c price size : ℚ) : Broker :=
  { cash := b.cash - price * size * (1 + c)
    qty := b.qty + size
    avg_cost :=
      if b.qty + size = 0 then 0
      else (b.avg_cost * b.qty + price * size) / (b.qty + size) }

/-- Modelled from the spec: a completed full-close sell at `price` under
commission rate `c` — the notional less commission is realised into cash and
the position is reset to flat. -/
def Broker.applySell (b : Broker) (c price : ℚ) : Broker :=
  { cash := b.cash + price * b.qty * (1 - c)
    qty := 0
    avg_cost := 0 }

/-- A completed trade as recorded in the trade log. -/
structure Trade where
  isSell : Bool
  fillPrice : ℚ
deriving DecidableEq

/-- The outcome of resolving the (at most one) in-flight order of a strategy
whose internal state has type `σ`. -/
structure Resolution (σ : Type) where
  broker : Broker
  strat : σ
  event : Option OrderEvent
deriving DecidableEq

/-- Modelled from the spec: the Order Lifecycle Manager resolves the in-flight
order against the current bar's price (fills are immediate, zero slippage).  A
plain `buy` is sized by the percent sizer (`pct` of available cash); a buy
whose notional plus commission exceeds available cash is rejected, not
partially filled; a close fills only while a position exists.  The strategy's
`notify` hook is invoked with the terminal outcome. -/
def resolveOrder {σ : Type} (notify : σ → OrderEvent → σ) (c pct : ℚ)
    (b : Broker) (st : σ) (order : Option Action) (price : ℚ) : Resolution σ :=
  match order with
  | none => ⟨b, st, none⟩
  | some .buy =>
      let size := pct * b.cash / price
      if price * size * (1 + c) ≤ b.cash then
        ⟨b.applyBuy c price size, notify st (.completedBuy price), some (.completedBuy price)⟩
      else ⟨b, notify st .failed, some .failed⟩
  | some (.buySize size) =>
      if price * size * (1 + c) ≤ b.cash then
        ⟨b.applyBuy c price size, notify st (.completedBuy price), some (.completedBuy price)⟩
      else ⟨b, notify st .failed, some .failed⟩
  | some (.close _) =>
      if 0 < b.qty then
        ⟨b.applySell c price, notify st (.completedSell price), some (.completedSell price)⟩
      else ⟨b, notify st .failed, some .failed⟩

/-- The trade-log entry of a resolution outcome, if any. -/
def logOf : Option OrderEvent → Option Trade
  | some (.completedBuy p) => some ⟨false, p⟩
  | some (.completedSell p) => some ⟨true, p⟩
  | _ => none

/-- Prepend the resolution's trade, if any, to a (newest-first) trade log. -/
def pushLog (e : Option OrderEvent) (log : List Trade) : List Trade :=
  match logOf e with
  | some t => t :: log
  | none => log

/-! ## Per-variant simulation drivers

Modelled from the spec's Simulation Driver: each bar first resolves the
in-flight order at the bar's price (delivering `notify_order`), then runs the
strategy step.  This matches the engine's behaviour for the market orders used
here: an order submitted on one bar reaches its terminal status, and is
cleared, before the strategy's step on the following bar. -/

namespace AnchorLowStrategy

structure Sim where
  broker : Broker
  strat : State
deriving DecidableEq

/-- One simulation step of the anchored-low variant at a bar with close
`price`, commission rate `c`, percent-sizer fraction `pct`. -/
def procBar (p : Params) (c pct : ℚ) (sim : Sim) (price : ℚ) : Sim :=
  let r := resolveOrder notify_order c pct sim.broker sim.strat sim.strat.order price
  { broker := r.broker
    strat := (next p r.strat r.broker.position price).1 }

end AnchorLowStrategy

namespace FixedPercentageStrategy

structure Sim where
  broker : Broker
  strat : State
  log : List Trade
deriving DecidableEq

/-- One simulation step of the fixed-percentage variant, also recording
completed fills into the trade log. -/
def procBar (p : Params) (c pct : ℚ) (sim : Sim) (price : ℚ) : Sim :=
  let r := resolveOrder notify_order c pct sim.broker sim.strat sim.strat.order price
  { broker := r.broker
    strat := (next p r.strat r.broker.position price).1
    log := pushLog r.event sim.log }

end FixedPercentageStrategy

namespace FixedAutoInvestStrategy

structure Bar where
  date : SimDate
  price : ℚ
deriving DecidableEq

structure Sim where
  broker : Broker
  strat : State
  log : List Trade
deriving DecidableEq

/-- One simulation step of the plain periodic-investment variant. -/
def procBar (p : Params) (c pct : ℚ) (sim : Sim) (bar : Bar) : Sim :=
  let r := resolveOrder notify_order c pct sim.broker sim.strat sim.strat.order bar.price
  { broker := r.broker
    strat := (next p r.strat bar.date bar.price r.broker.cash).1
    log := pushLog r.event sim.log }

end FixedAutoInvestStrategy

namespace SmartAciAndTakeProfitStrategy

/-- A bar as seen by this variant: date, close, and the externally computed
baseline moving average at that bar. -/
structure Bar where
  date : SimDate
  price : ℚ
  maBaseline : ℚ
deriving DecidableEq

structure Sim where
  broker : Broker
  strat : State
  log : List Trade
deriving DecidableEq

/-- One simulation step of the periodic-investment + take-profit variant. -/
def procBar (p : Params) (c pct : ℚ) (sim : Sim) (bar : Bar) : Sim :=
  let r := resolveOrder notify_order c pct sim.broker sim.strat sim.strat.order bar.price
  { broker := r.broker
    strat := (next p r.strat r.broker.position bar.date bar.price bar.maBaseline).1
    log := pushLog r.event sim.log }

end SmartAciAndTakeProfitStrategy

/-! ## Theorems -/

/-- C1: for every strategy variant, if an order is in-flight at the start of a
step then that step submits no new order, runs none of the decision logic, and
leaves all strategy state unchanged — the step is a no-op. -/
theorem c1_inflight_step_noop :
    (∀ (s : DualMACrossoverStrategy.State) (a : Action) (hasPos : Bool) (cr : ℚ),
      s.order = some a → DualMACrossoverStrategy.next s hasPos cr = (s, none))
    ∧ (∀ (s : BollingerBandsStrategy.State) (a : Action) (hasPos : Bool) (cl bot mid : ℚ),
      s.order = some a → BollingerBandsStrategy.next s hasPos cl bot mid = (s, none))
    ∧ (∀ (s : MacdStrategy.State) (a : Action) (hasPos : Bool) (cr : ℚ),
      s.order = some a → MacdStrategy.next s hasPos cr = (s, none))
    ∧ (∀ (s : DualConfirmationStrategy.State) (a : Action) (hasPos : Bool) (cl ma rsi lo : ℚ),
      s.order = some a → DualConfirmationStrategy.next s hasPos cl ma rsi lo = (s, none))
    ∧ (∀ (p : FixedPercentageStrategy.Params) (s : FixedPercentageStrategy.State)
        (a : Action) (pos : Option ℚ) (price : ℚ),
      s.order = some a → FixedPercentageStrategy.next p s pos price = (s, none))
    ∧ (∀ (p : AnchorLowStrategy.Params) (s : AnchorLowStrategy.State)
        (a : Action) (pos : Option ℚ) (price : ℚ),
      s.order = some a → AnchorLowStrategy.next p s pos price = (s, none))
    ∧ (∀ (p : FixedAutoInvestStrategy.Params) (s : FixedAutoInvestStrategy.State)
        (a : Action) (d : SimDate) (price cash : ℚ),
      s.order = some a → FixedAutoInvestStrategy.next p s d price cash = (s, none))
    ∧ (∀ (p : SmartAciOnlyStrategy.Params) (s : SmartAciOnlyStrategy.State)
        (a : Action) (d : SimDate) (price ma cash : ℚ),
      s.order = some a → SmartAciOnlyStrategy.next p s d price ma cash = (s, none))
    ∧ (∀ (p : SmartAciAndTakeProfitStrategy.Params) (s : SmartAciAndTakeProfitStrategy.State)
        (a : Action) (pos : Option ℚ) (d : SimDate) (price ma : ℚ),
      s.order = some a → SmartAciAndTakeProfitStrategy.next p s pos d price ma = (s, none)) := by
  refine ⟨?_, ?_, ?_, ?_, ?_, ?_, ?_, ?_, ?_⟩ <;> intros <;>
    simp_all [DualMACrossoverStrategy.next, BollingerBandsStrategy.next, MacdStrategy.next,
      DualConfirmationStrategy.next, FixedPercentageStrategy.next, AnchorLowStrategy.next,
      FixedAutoInvestStrategy.next, SmartAciOnlyStrategy.next,
      SmartAciAndTakeProfitStrategy.next]

/-- C1 witness: the no-op at a concrete in-flight state in each variant. -/
theorem c1_inflight_step_noop_witness :
    DualMACrossoverStrategy.next ⟨some .buy⟩ false 1 = (⟨some .buy⟩, none)
    ∧ BollingerBandsStrategy.next ⟨some .buy⟩ false 1 0 2 = (⟨some .buy⟩, none)
    ∧ MacdStrategy.next ⟨some .buy⟩ false 1 = (⟨some .buy⟩, none)
    ∧ DualConfirmationStrategy.next ⟨some .buy⟩ false 3 1 2 30 = (⟨some .buy⟩, none)
    ∧ FixedPercentageStrategy.next ⟨1, 1, 1⟩ ⟨some .buy, 5⟩ none 1 = (⟨some .buy, 5⟩, none)
    ∧ AnchorLowStrategy.next ⟨1, 1, 1, 1⟩ ⟨some .buy, 1, some 2⟩ none 1
        = (⟨some .buy, 1, some 2⟩, none)
    ∧ FixedAutoInvestStrategy.next ⟨1, 2000⟩ ⟨some (.buySize 1), 3⟩ ⟨2021, 4, 1⟩ 1 9000
        = (⟨some (.buySize 1), 3⟩, none)
    ∧ SmartAciOnlyStrategy.next ⟨1, 2000⟩ ⟨some (.buySize 1), 3⟩ ⟨2021, 4, 1⟩ 1 2 9000
        = (⟨some (.buySize 1), 3⟩, none)
    ∧ SmartAciAndTakeProfitStrategy.next ⟨1, 1, 2000⟩ ⟨some (.buySize 1), 3⟩ none ⟨2021, 4, 1⟩ 1 2
        = (⟨some (.buySize 1), 3⟩, none) :=
  ⟨c1_inflight_step_noop.1 _ _ _ _ rfl,
   c1_inflight_step_noop.2.1 _ _ _ _ _ _ rfl,
   c1_inflight_step_noop.2.2.1 _ _ _ _ rfl,
   c1_inflight_step_noop.2.2.2.1 _ _ _ _ _ _ _ rfl,
   c1_inflight_step_noop.2.2.2.2.1 _ _ _ _ _ rfl,
   c1_inflight_step_noop.2.2.2.2.2.1 _ _ _ _ _ rfl,
   c1_inflight_step_noop.2.2.2.2.2.2.1 _ _ _ _ _ _ rfl,
   c1_inflight_step_noop.2.2.2.2.2.2.2.1 _ _ _ _ _ _ _ rfl,
   c1_inflight_step_noop.2.2.2.2.2.2.2.2 _ _ _ _ _ _ _ rfl⟩

/-- C2 counterexample: in the plain periodic variant (and the MA-gated pure
periodic variant), a cash-insufficient eligible day submits no order but does
NOT leave the strategy state unchanged: `last_investment_month` moves from `-1`
to the current month. -/
theorem c2_cash_skip_counterexample :
    (FixedAutoInvestStrategy.next ⟨1, 2000⟩ FixedAutoInvestStrategy.initState
        ⟨2021, 1, 5⟩ 1 1000).2 = none
    ∧ (FixedAutoInvestStrategy.next ⟨1, 2000⟩ FixedAutoInvestStrategy.initState
        ⟨2021, 1, 5⟩ 1 1000).1.last_investment_month = 1
    ∧ FixedAutoInvestStrategy.initState.last_investment_month = -1
    ∧ (SmartAciOnlyStrategy.next ⟨1, 2000⟩ SmartAciOnlyStrategy.initState
        ⟨2021, 1, 5⟩ 1 2 1000).2 = none
    ∧ (SmartAciOnlyStrategy.next ⟨1, 2000⟩ SmartAciOnlyStrategy.initState
        ⟨2021, 1, 5⟩ 1 2 1000).1.last_investment_month = 1
    ∧ SmartAciOnlyStrategy.initState.last_investment_month = -1 := by
  decide

/-- C2 amended: when the monthly gate fires on an eligible day but cash is not
strictly greater than the configured notional, no order is submitted, but
`last_investment_month` is updated to the current month (the month is recorded
before the cash check); all other strategy state is unchanged. -/
theorem c2_cash_skip_amended :
    (∀ (p : FixedAutoInvestStrategy.Params) (s : FixedAutoInvestStrategy.State)
        (d : SimDate) (price cash : ℚ),
      s.order = none → (d.month : Int) ≠ s.last_investment_month →
      d.day ≥ p.investment_day → ¬ cash > p.investment_amount →
      FixedAutoInvestStrategy.next p s d price cash
        = ({ s with last_investment_month := (d.month : Int) }, none))
    ∧ (∀ (p : SmartAciOnlyStrategy.Params) (s : SmartAciOnlyStrategy.State)
        (d : SimDate) (price ma cash : ℚ),
      s.order = none → (d.month : Int) ≠ s.last_investment_month →
      d.day ≥ p.investment_day → price < ma → ¬ cash > p.base_investment →
      SmartAciOnlyStrategy.next p s d price ma cash
        = ({ s with last_investment_month := (d.month : Int) }, none)) := by
  constructor
  · intro p s d price cash h0 h1 h2 h3
    simp [FixedAutoInvestStrategy.next, h0, h1, h2, h3]
  · intro p s d price ma cash h0 h1 h2 h3 h4
    simp [SmartAciOnlyStrategy.next, h0, h1, h2, h3, h4]

/-- C2 witness: the amended behaviour at a concrete cash-short eligible day. -/
theorem c2_cash_skip_amended_witness :
    FixedAutoInvestStrategy.next ⟨1, 2000⟩ FixedAutoInvestStrategy.initState
        ⟨2021, 1, 5⟩ 1 1000
      = ({ FixedAutoInvestStrategy.initState with last_investment_month := 1 }, none)
    ∧ SmartAciOnlyStrategy.next ⟨1, 2000⟩ SmartAciOnlyStrategy.initState
        ⟨2021, 1, 5⟩ 1 2 1000
      = ({ SmartAciOnlyStrategy.initState with last_investment_month := 1 }, none) :=
  ⟨c2_cash_skip_amended.1 _ _ _ _ _ rfl (by decide) (by decide) (by decide),
   c2_cash_skip_amended.2 _ _ _ _ _ _ rfl (by decide) (by decide) (by decide) (by decide)⟩

/-- The tracked historical low viewed in `WithTop ℚ` (`none`, the initial
`float('inf')`, maps to `⊤`). -/
def oLow : Option ℚ → WithTop ℚ
  | none => ⊤
  | some v => (v : WithTop ℚ)

lemma anchor_notify_low (s : AnchorLowStrategy.State) (e : OrderEvent) :
    (AnchorLowStrategy.notify_order s e).historical_low = s.historical_low := by
  cases e <;> rfl

lemma anchor_notify_order_none (s : AnchorLowStrategy.State) (e : OrderEvent)
    (h : e ≠ .pending) : (AnchorLowStrategy.notify_order s e).order = none := by
  cases e <;> simp_all [AnchorLowStrategy.notify_order]

lemma anchor_resolve_order_none (c pct : ℚ) (b : Broker)
    (st : AnchorLowStrategy.State) (price : ℚ) :
    (resolveOrder AnchorLowStrategy.notify_order c pct b st st.order price).strat.order
      = none := by
  rcases h : st.order with _ | a
  · simp [resolveOrder, h]
  · rcases a with _ | sz | r <;> simp only [resolveOrder, h] <;> split_ifs <;>
      exact anchor_notify_order_none _ _ (by simp)

lemma anchor_resolve_low (c pct : ℚ) (b : Broker)
    (st : AnchorLowStrategy.State) (price : ℚ) :
    (resolveOrder AnchorLowStrategy.notify_order c pct b st st.order price).strat.historical_low
      = st.historical_low := by
  rcases h : st.order with _ | a
  · simp [resolveOrder, h]
  · rcases a with _ | sz | r <;> simp only [resolveOrder, h] <;> split_ifs <;>
      exact anchor_notify_low _ _

lemma anchor_next_low (p : AnchorLowStrategy.Params) (s : AnchorLowStrategy.State)
    (pos : Option ℚ) (price : ℚ) (h : s.order = none) :
    ((AnchorLowStrategy.next p s pos price).1).historical_low
      = some (AnchorLowStrategy.updLow s.historical_low price) := by
  rcases pos with _ | bp <;> simp [AnchorLowStrategy.next, h] <;> split_ifs <;> rfl

lemma anchor_procBar_low (p : AnchorLowStrategy.Params) (c pct : ℚ)
    (sim : AnchorLowStrategy.Sim) (price : ℚ) :
    (AnchorLowStrategy.procBar p c pct sim price).strat.historical_low
      = some (AnchorLowStrategy.updLow sim.strat.historical_low price) := by
  unfold AnchorLowStrategy.procBar
  rw [anchor_next_low _ _ _ _ (anchor_resolve_order_none ..), anchor_resolve_low]

lemma anchor_updLow_le (l : Option ℚ) (price : ℚ) :
    oLow (some (AnchorLowStrategy.updLow l price)) ≤ oLow l := by
  rcases l with _ | v
  · exact le_top
  · simp only [AnchorLowStrategy.updLow, oLow]
    split_ifs with h
    · exact WithTop.coe_le_coe.mpr h.le
    · exact le_refl _

lemma anchor_run_low_antitone (p : AnchorLowStrategy.Params) (c pct : ℚ) :
    ∀ (bars : List ℚ) (sim : AnchorLowStrategy.Sim),
      oLow ((List.foldl (AnchorLowStrategy.procBar p c pct) sim bars).strat.historical_low)
        ≤ oLow sim.strat.historical_low := by
  intro bars
  induction bars with
  | nil => intro sim; exact le_refl _
  | cons b bs ih =>
      intro sim
      calc oLow ((List.foldl (AnchorLowStrategy.procBar p c pct)
                (AnchorLowStrategy.procBar p c pct sim b) bs).strat.historical_low)
          ≤ oLow ((AnchorLowStrategy.procBar p c pct sim b).strat.historical_low) := ih _
        _ ≤ oLow sim.strat.historical_low := by
            rw [anchor_procBar_low]; exact anchor_updLow_le _ _

/-- C3: in the anchored-low variant, on every bar of a run the tracked
historical low after the bar equals the minimum of its previous value and the
bar's close (with the initial value playing the role of `+∞`); consequently it
is monotonically non-increasing along the whole run and is never reset,
whatever the phase, position or in-flight order at that bar. -/
theorem c3_historical_low_min :
    (∀ (p : AnchorLowStrategy.Params) (c pct : ℚ) (sim : AnchorLowStrategy.Sim)
        (price : ℚ),
      (AnchorLowStrategy.procBar p c pct sim price).strat.historical_low
        = some (AnchorLowStrategy.updLow sim.strat.historical_low price))
    ∧ (∀ (l price : ℚ), AnchorLowStrategy.updLow (some l) price = min l price)
    ∧ (∀ price : ℚ, AnchorLowStrategy.updLow none price = price)
    ∧ (∀ (p : AnchorLowStrategy.Params) (c pct : ℚ) (sim : AnchorLowStrategy.Sim)
        (bars extra : List ℚ),
      oLow ((List.foldl (AnchorLowStrategy.procBar p c pct) sim
              (bars ++ extra)).strat.historical_low)
        ≤ oLow ((List.foldl (AnchorLowStrategy.procBar p c pct) sim
              bars).strat.historical_low)) := by
  refine ⟨anchor_procBar_low, ?_, fun _ => rfl, ?_⟩
  · intro l price
    simp only [AnchorLowStrategy.updLow]
    split_ifs with h
    · exact (min_eq_right h.le).symm
    · exact (min_eq_left (not_lt.mp h)).symm
  · intro p c pct sim bars extra
    rw [List.foldl_append]
    exact anchor_run_low_antitone p c pct extra _

/-- C4: in both variants that have a profit target and a stop loss, on any bar
where the price satisfies both thresholds at once while long with no in-flight
order, the profit-target branch is the one taken — it is evaluated before the
stop-loss check. -/
theorem c4_profit_before_stop_loss :
    (∀ (p : FixedPercentageStrategy.Params) (s : FixedPercentageStrategy.State)
        (buyPrice price : ℚ),
      s.order = none →
      price ≥ buyPrice * (1 + p.profit_pct) →
      price ≤ buyPrice * (1 - p.loss_pct) →
      (FixedPercentageStrategy.next p s (some buyPrice) price).2
        = some (.close .profitTarget))
    ∧ (∀ (p : AnchorLowStrategy.Params) (s : AnchorLowStrategy.State)
        (buyPrice price : ℚ),
      s.order = none → s.strategy_phase = 2 →
      price ≥ buyPrice * (1 + p.cycle_profit) →
      price ≤ buyPrice * (1 - p.cycle_loss) →
      (AnchorLowStrategy.next p s (some buyPrice) price).2
        = some (.close .cycleProfit)) := by
  constructor
  · intro p s buyPrice price h0 h1 h2
    simp [FixedPercentageStrategy.next, h0, h1]
  · intro p s buyPrice price h0 hph h1 h2
    simp [AnchorLowStrategy.next, h0, hph, h1]

/-- C4 witness: with both percentages zero, a price exactly at the cost basis
satisfies both thresholds, and the profit branch fires in each variant. -/
theorem c4_profit_before_stop_loss_witness :
    ((1 : ℚ) ≥ 1 * (1 + 0) ∧ (1 : ℚ) ≤ 1 * (1 - 0)
      ∧ (FixedPercentageStrategy.next ⟨0, 0, 5⟩ ⟨none, 2⟩ (some 1) 1).2
          = some (.close .profitTarget))
    ∧ ((1 : ℚ) ≥ 1 * (1 + 0) ∧ (1 : ℚ) ≤ 1 * (1 - 0)
      ∧ (AnchorLowStrategy.next ⟨0, 0, 0, 0⟩ ⟨none, 2, some 1⟩ (some 1) 1).2
          = some (.close .cycleProfit)) :=
  ⟨⟨by norm_num, by norm_num,
    c4_profit_before_stop_loss.1 _ _ _ _ rfl (by norm_num) (by norm_num)⟩,
   ⟨by norm_num, by norm_num,
    c4_profit_before_stop_loss.2 _ _ _ _ rfl rfl (by norm_num) (by norm_num)⟩⟩

/-- The most recent completed-sell fill price in a (newest-first) trade log. -/
def lastSoldPrice : List Trade → Option ℚ
  | [] => none
  | t :: ts => if t.isSell then some t.fillPrice else lastSoldPrice ts

/-- Bookkeeping invariant of the fixed-percentage variant: `last_sell_price` is
`0` until the first completed sell and thereafter equals the raw fill price of
the most recent completed sell. -/
def sellInv (sim : FixedPercentageStrategy.Sim) : Prop :=
  sim.strat.last_sell_price = (lastSoldPrice sim.log).getD 0

lemma fixedPct_next_lsp (p : FixedPercentageStrategy.Params)
    (s : FixedPercentageStrategy.State) (pos : Option ℚ) (price : ℚ) :
    ((FixedPercentageStrategy.next p s pos price).1).last_sell_price
      = s.last_sell_price := by
  rcases pos with _ | bp <;> simp [FixedPercentageStrategy.next] <;> split_ifs <;> rfl

lemma fixedPct_procBar_sellInv (p : FixedPercentageStrategy.Params) (c pct : ℚ)
    (sim : FixedPercentageStrategy.Sim) (price : ℚ) (h : sellInv sim) :
    sellInv (FixedPercentageStrategy.procBar p c pct sim price) := by
  unfold sellInv FixedPercentageStrategy.procBar at *
  rw [fixedPct_next_lsp]
  rcases ho : sim.strat.order with _ | a
  · simpa [resolveOrder, pushLog, logOf] using h
  · rcases a with _ | sz | r <;>
      simp only [resolveOrder] <;> split_ifs <;>
      simp [FixedPercentageStrategy.notify_order, pushLog, logOf, lastSoldPrice, h]

/-- C5: in the fixed-percentage breakout/rebuy variant, `last_sell_price`
starts at `0`, is set to the raw fill price on every completed sell (and by
nothing else along a run); while flat with no in-flight order, the buy is
unconditional when `last_sell_price = 0` and otherwise fires exactly when the
price breaks out of the `±rebuy_pct` band around `last_sell_price`. -/
theorem c5_last_sell_price_rebuy :
    FixedPercentageStrategy.initState.last_sell_price = 0
    ∧ (∀ (s : FixedPercentageStrategy.State) (pr : ℚ),
        (FixedPercentageStrategy.notify_order s (.completedSell pr)).last_sell_price = pr)
    ∧ (∀ (p : FixedPercentageStrategy.Params) (s : FixedPercentageStrategy.State)
        (price : ℚ), s.order = none → s.last_sell_price = 0 →
        FixedPercentageStrategy.next p s none price
          = ({ s with order := some .buy }, some .buy))
    ∧ (∀ (p : FixedPercentageStrategy.Params) (s : FixedPercentageStrategy.State)
        (price : ℚ), s.order = none → s.last_sell_price ≠ 0 →
        ((FixedPercentageStrategy.next p s none price).2 = some Action.buy
          ↔ price ≥ s.last_sell_price * (1 + p.rebuy_pct)
            ∨ price ≤ s.last_sell_price * (1 - p.rebuy_pct)))
    ∧ (∀ b : Broker, sellInv ⟨b, FixedPercentageStrategy.initState, []⟩)
    ∧ (∀ (p : FixedPercentageStrategy.Params) (c pct : ℚ)
        (sim : FixedPercentageStrategy.Sim) (price : ℚ),
        sellInv sim → sellInv (FixedPercentageStrategy.procBar p c pct sim price)) := by
  refine ⟨rfl, fun s pr => rfl, ?_, ?_, ?_, fixedPct_procBar_sellInv⟩
  · intro p s price h0 h1
    simp [FixedPercentageStrategy.next, h0, h1]
  · intro p s price h0 h1
    simp only [FixedPercentageStrategy.next, h0, Option.isSome_none, Bool.false_eq_true,
      if_false, h1, if_neg h1]
    split_ifs with hA hB <;> simp_all
  · intro b
    simp [sellInv, lastSoldPrice, FixedPercentageStrategy.initState]

/-- C5 witness: the very first flat bar buys unconditionally; after a sell at
106 with a 5% band, the rebuy fires at 100.7 and the invariant survives a
concrete bar. -/
theorem c5_last_sell_price_rebuy_witness :
    FixedPercentageStrategy.next ⟨5/100, 5/100, 5/100⟩ FixedPercentageStrategy.initState
        none 1
      = ({ FixedPercentageStrategy.initState with order := some .buy }, some .buy)
    ∧ ((FixedPercentageStrategy.next ⟨5/100, 5/100, 5/100⟩ ⟨none, 106⟩ none (1007/10)).2
          = some Action.buy
        ↔ (1007/10 : ℚ) ≥ 106 * (1 + 5/100) ∨ (1007/10 : ℚ) ≤ 106 * (1 - 5/100))
    ∧ sellInv (FixedPercentageStrategy.procBar ⟨5/100, 5/100, 5/100⟩ 0 (98/100)
        ⟨⟨100000, 0, 0⟩, FixedPercentageStrategy.initState, []⟩ 1) :=
  ⟨c5_last_sell_price_rebuy.2.2.1 _ _ _ rfl rfl,
   c5_last_sell_price_rebuy.2.2.2.1 _ _ _ rfl (by norm_num),
   c5_last_sell_price_rebuy.2.2.2.2.2 _ _ _ _ _ rfl⟩

lemma anchor_notify_phase2 (s : AnchorLowStrategy.State) (e : OrderEvent)
    (h : s.strategy_phase = 2) :
    (AnchorLowStrategy.notify_order s e).strategy_phase = 2 := by
  cases e <;> simp [AnchorLowStrategy.notify_order, h]

lemma anchor_next_phase (p : AnchorLowStrategy.Params) (s : AnchorLowStrategy.State)
    (pos : Option ℚ) (price : ℚ) :
    ((AnchorLowStrategy.next p s pos price).1).strategy_phase = s.strategy_phase := by
  rcases pos with _ | bp <;> simp [AnchorLowStrategy.next] <;> split_ifs <;> rfl

lemma anchor_resolve_phase2 (c pct : ℚ) (b : Broker) (st : AnchorLowStrategy.State)
    (price : ℚ) (h : st.strategy_phase = 2) :
    (resolveOrder AnchorLowStrategy.notify_order c pct b st st.order price).strat.strategy_phase
      = 2 := by
  rcases ho : st.order with _ | a
  · simp [resolveOrder, ho, h]
  · rcases a with _ | sz | r <;> simp only [resolveOrder, ho] <;> split_ifs <;>
      exact anchor_notify_phase2 _ _ h

lemma anchor_procBar_phase2 (p : AnchorLowStrategy.Params) (c pct : ℚ)
    (sim : AnchorLowStrategy.Sim) (price : ℚ) (h : sim.strat.strategy_phase = 2) :
    (AnchorLowStrategy.procBar p c pct sim price).strat.strategy_phase = 2 := by
  unfold AnchorLowStrategy.procBar
  rw [anchor_next_phase]
  exact anchor_resolve_phase2 _ _ _ _ _ h

lemma anchor_run_phase2 (p : AnchorLowStrategy.Params) (c pct : ℚ) :
    ∀ (bars : List ℚ) (sim : AnchorLowStrategy.Sim),
      sim.strat.strategy_phase = 2 →
      (List.foldl (AnchorLowStrategy.procBar p c pct) sim bars).strat.strategy_phase = 2 := by
  intro bars
  induction bars with
  | nil => intro sim h; exact h
  | cons b bs ih => intro sim h; exact ih _ (anchor_procBar_phase2 _ _ _ _ _ h)

/-- C6: the anchored-low strategy starts in phase 1 with no order; a bar while
flat in phase 1 with no in-flight order submits an unconditional buy; a
completed sell in phase 1 moves the phase to 2; and from any phase-2 state the
phase remains 2 across every later bar, fill or rejection of a run. -/
theorem c6_phase_one_to_two_monotone :
    AnchorLowStrategy.initState.strategy_phase = 1
    ∧ AnchorLowStrategy.initState.order = none
    ∧ (∀ (p : AnchorLowStrategy.Params) (c pct : ℚ) (sim : AnchorLowStrategy.Sim)
        (price : ℚ),
        sim.strat.order = none → sim.strat.strategy_phase = 1 → ¬ 0 < sim.broker.qty →
        (AnchorLowStrategy.procBar p c pct sim price).strat.order = some Action.buy)
    ∧ (∀ (s : AnchorLowStrategy.State) (pr : ℚ), s.strategy_phase = 1 →
        (AnchorLowStrategy.notify_order s (.completedSell pr)).strategy_phase = 2)
    ∧ (∀ (p : AnchorLowStrategy.Params) (c pct : ℚ) (sim : AnchorLowStrategy.Sim)
        (bars : List ℚ),
        sim.strat.strategy_phase = 2 →
        (List.foldl (AnchorLowStrategy.procBar p c pct) sim bars).strat.strategy_phase
          = 2) := by
  refine ⟨rfl, rfl, ?_, ?_, fun p c pct sim bars h => anchor_run_phase2 p c pct bars sim h⟩
  · intro p c pct sim price h0 h1 h2
    unfold AnchorLowStrategy.procBar
    simp [resolveOrder, h0, AnchorLowStrategy.next, Broker.position, h2, h1]
  · intro s pr h
    simp [AnchorLowStrategy.notify_order, h]

/-- C6 witness: a concrete flat phase-1 start buys on the first bar, a concrete
phase-1 sell fill lands in phase 2, and a concrete phase-2 state stays in phase
2 along a two-bar run. -/
theorem c6_phase_one_to_two_monotone_witness :
    (AnchorLowStrategy.procBar ⟨15/100, 1/10, 1/20, 3/100⟩ (15/10000) (98/100)
        ⟨⟨100000, 0, 0⟩, AnchorLowStrategy.initState⟩ 1).strat.order = some Action.buy
    ∧ (AnchorLowStrategy.notify_order ⟨none, 1, some 1⟩ (.completedSell 2)).strategy_phase = 2
    ∧ (List.foldl (AnchorLowStrategy.procBar ⟨15/100, 1/10, 1/20, 3/100⟩ 0 (98/100))
        ⟨⟨100, 0, 0⟩, ⟨none, 2, some 1⟩⟩ [1, 2]).strat.strategy_phase = 2 :=
  ⟨c6_phase_one_to_two_monotone.2.2.1 _ _ _ _ _ rfl rfl (by norm_num),
   c6_phase_one_to_two_monotone.2.2.2.1 _ _ rfl,
   c6_phase_one_to_two_monotone.2.2.2.2 _ _ _ _ _ rfl⟩

/-- C7: commission is applied to the trade notional on both sides and settled
into cash at fill time: a completed buy of notional `N = price × size` lowers
cash by exactly `N × (1 + c)`, and a completed full-close sell of notional
`M = price × qty` raises cash by exactly `M × (1 − c)`. -/
theorem c7_commission_on_fills :
    (∀ (σ : Type) (notify : σ → OrderEvent → σ) (c pct : ℚ) (b : Broker) (st : σ)
        (size price : ℚ),
      price * size * (1 + c) ≤ b.cash →
      (resolveOrder notify c pct b st (some (.buySize size)) price).broker.cash
        = b.cash - (price * size) * (1 + c))
    ∧ (∀ (σ : Type) (notify : σ → OrderEvent → σ) (c pct : ℚ) (b : Broker) (st : σ)
        (r : CloseReason) (price : ℚ),
      0 < b.qty →
      (resolveOrder notify c pct b st (some (.close r)) price).broker.cash
        = b.cash + (price * b.qty) * (1 - c)) := by
  constructor
  · intro σ notify c pct b st size price h
    simp [resolveOrder, h, Broker.applyBuy]
  · intro σ notify c pct b st r price h
    simp [resolveOrder, h, Broker.applySell]

/-- C7 witness: concrete buy and sell fills with zero commission rate checked
against the exact cash deltas. -/
theorem c7_commission_on_fills_witness :
    ((1 : ℚ) * 2 * (1 + 0) ≤ 100
      ∧ (resolveOrder (fun (s : Unit) (_ : OrderEvent) => s) 0 1
          ⟨100, 5, 2⟩ () (some (.buySize 2)) 1).broker.cash = 100 - (1 * 2) * (1 + 0))
    ∧ ((0 : ℚ) < 5
      ∧ (resolveOrder (fun (s : Unit) (_ : OrderEvent) => s) 0 1
          ⟨100, 5, 2⟩ () (some (.close .exitSignal)) 1).broker.cash
            = 100 + (1 * 5) * (1 - 0)) :=
  ⟨⟨by norm_num, c7_commission_on_fills.1 _ _ _ _ _ _ _ _ (by norm_num)⟩,
   ⟨by norm_num, c7_commission_on_fills.2 _ _ _ _ _ _ _ _ (by norm_num)⟩⟩

/-- C8: the monthly gate of all three periodic-investment variants compares the
month-of-year number alone against the last invested month, ignoring the year:
whenever the numbers coincide the whole step is a no-op; and on a concrete
two-bar series whose bars are eligible days exactly one year apart (with no bar
in between), only the first yields a buy, the second no evaluation at all. -/
theorem c8_monthly_gate_ignores_year :
    (∀ (p : FixedAutoInvestStrategy.Params) (s : FixedAutoInvestStrategy.State)
        (d : SimDate) (price cash : ℚ),
      s.order = none → (d.month : Int) = s.last_investment_month →
      FixedAutoInvestStrategy.next p s d price cash = (s, none))
    ∧ (∀ (p : SmartAciOnlyStrategy.Params) (s : SmartAciOnlyStrategy.State)
        (d : SimDate) (price ma cash : ℚ),
      s.order = none → (d.month : Int) = s.last_investment_month →
      SmartAciOnlyStrategy.next p s d price ma cash = (s, none))
    ∧ (∀ (p : SmartAciAndTakeProfitStrategy.Params)
        (s : SmartAciAndTakeProfitStrategy.State) (d : SimDate) (price ma : ℚ),
      s.order = none → (d.month : Int) = s.last_investment_month →
      SmartAciAndTakeProfitStrategy.next p s none d price ma = (s, none))
    ∧ ((List.foldl (FixedAutoInvestStrategy.procBar ⟨1, 2000⟩ 0 (98/100))
          ⟨⟨200000, 0, 0⟩, FixedAutoInvestStrategy.initState, []⟩
          [⟨⟨2020, 3, 2⟩, 1⟩, ⟨⟨2021, 3, 1⟩, 1⟩]).log.length = 1
        ∧ (List.foldl (FixedAutoInvestStrategy.procBar ⟨1, 2000⟩ 0 (98/100))
          ⟨⟨200000, 0, 0⟩, FixedAutoInvestStrategy.initState, []⟩
          [⟨⟨2020, 3, 2⟩, 1⟩, ⟨⟨2021, 3, 1⟩, 1⟩]).strat.order = none
        ∧ (List.foldl (FixedAutoInvestStrategy.procBar ⟨1, 2000⟩ 0 (98/100))
          ⟨⟨200000, 0, 0⟩, FixedAutoInvestStrategy.initState, []⟩
          [⟨⟨2020, 3, 2⟩, 1⟩, ⟨⟨2021, 3, 1⟩, 1⟩]).strat.last_investment_month = 3) := by
  refine ⟨?_, ?_, ?_, ?_⟩
  · intro p s d price cash h0 h1
    simp [FixedAutoInvestStrategy.next, h0, h1]
  · intro p s d price ma cash h0 h1
    simp [SmartAciOnlyStrategy.next, h0, h1]
  · intro p s d price ma h0 h1
    simp [SmartAciAndTakeProfitStrategy.next, h0, h1]
  · norm_num [List.foldl, FixedAutoInvestStrategy.procBar, resolveOrder,
      FixedAutoInvestStrategy.next, FixedAutoInvestStrategy.notify_order,
      FixedAutoInvestStrategy.initState, Broker.applyBuy, pushLog, logOf]

/-- C8 witness: the same-month no-op at a concrete state in each of the three
variants, one year after the recorded month. -/
theorem c8_monthly_gate_ignores_year_witness :
    FixedAutoInvestStrategy.next ⟨1, 2000⟩ ⟨none, 3⟩ ⟨2021, 3, 1⟩ 1 200000
      = (⟨none, 3⟩, none)
    ∧ SmartAciOnlyStrategy.next ⟨1, 2000⟩ ⟨none, 3⟩ ⟨2021, 3, 1⟩ 1 2 200000
      = (⟨none, 3⟩, none)
    ∧ SmartAciAndTakeProfitStrategy.next ⟨1/10, 1, 2000⟩ ⟨none, 3⟩ none ⟨2021, 3, 1⟩ 1 2
      = (⟨none, 3⟩, none) :=
  ⟨c8_monthly_gate_ignores_year.1 _ _ _ _ _ rfl (by decide),
   c8_monthly_gate_ignores_year.2.1 _ _ _ _ _ _ rfl (by decide),
   c8_monthly_gate_ignores_year.2.2.1 _ _ _ _ _ rfl (by decide)⟩

/-- C9: the periodic-investment + take-profit variant submits its monthly buy of
`base_investment / price` with no cash check whatsoever (its step does not even
read the cash balance), so it also fires when cash is below the notional and is
only rejected downstream by the ledger — unlike the pure and plain periodic
variants, whose steps submit nothing whenever cash is not strictly above the
configured amount. -/
theorem c9_take_profit_variant_skips_cash_check :
    (∀ (p : SmartAciAndTakeProfitStrategy.Params)
        (s : SmartAciAndTakeProfitStrategy.State) (d : SimDate) (price ma : ℚ),
      s.order = none → (d.month : Int) ≠ s.last_investment_month →
      d.day ≥ p.investment_day → price < ma →
      (SmartAciAndTakeProfitStrategy.next p s none d price ma).2
        = some (.buySize (p.base_investment / price)))
    ∧ (∀ (p : SmartAciOnlyStrategy.Params) (s : SmartAciOnlyStrategy.State)
        (d : SimDate) (price ma cash : ℚ),
      s.order = none → ¬ cash > p.base_investment →
      (SmartAciOnlyStrategy.next p s d price ma cash).2 = none)
    ∧ (∀ (p : FixedAutoInvestStrategy.Params) (s : FixedAutoInvestStrategy.State)
        (d : SimDate) (price cash : ℚ),
      s.order = none → ¬ cash > p.investment_amount →
      (FixedAutoInvestStrategy.next p s d price cash).2 = none)
    ∧ (∀ (σ : Type) (notify : σ → OrderEvent → σ) (c pct : ℚ) (b : Broker) (st : σ)
        (size price : ℚ),
      ¬ price * size * (1 + c) ≤ b.cash →
      (resolveOrder notify c pct b st (some (.buySize size)) price).broker = b
        ∧ (resolveOrder notify c pct b st (some (.buySize size)) price).event
            = some .failed) := by
  refine ⟨?_, ?_, ?_, ?_⟩
  · intro p s d price ma h0 h1 h2 h3
    simp [SmartAciAndTakeProfitStrategy.next, h0, h1, h2, h3]
  · intro p s d price ma cash h0 h1
    simp only [SmartAciOnlyStrategy.next, h0, Option.isSome_none, Bool.false_eq_true,
      if_false]
    split_ifs <;> simp_all
  · intro p s d price cash h0 h1
    simp only [FixedAutoInvestStrategy.next, h0, Option.isSome_none, Bool.false_eq_true,
      if_false]
    split_ifs <;> simp_all
  · intro σ notify c pct b st size price h
    simp [resolveOrder, h]

/-- C9 witness: with zero cash on hand, the take-profit variant still submits
the monthly buy, both cash-gated variants submit nothing, and the ledger
rejects the submitted buy without touching the account. -/
theorem c9_take_profit_variant_skips_cash_check_witness :
    (SmartAciAndTakeProfitStrategy.next ⟨1/10, 1, 2000⟩
        SmartAciAndTakeProfitStrategy.initState none ⟨2021, 5, 3⟩ 10 11).2
      = some (.buySize (2000/10))
    ∧ (SmartAciOnlyStrategy.next ⟨1, 2000⟩ SmartAciOnlyStrategy.initState
        ⟨2021, 5, 3⟩ 10 11 0).2 = none
    ∧ (FixedAutoInvestStrategy.next ⟨1, 2000⟩ FixedAutoInvestStrategy.initState
        ⟨2021, 5, 3⟩ 10 0).2 = none
    ∧ (resolveOrder (fun (s : Unit) (_ : OrderEvent) => s) 0 (98/100)
        ⟨0, 0, 0⟩ () (some (.buySize (2000/10))) 10).broker = ⟨0, 0, 0⟩
    ∧ (resolveOrder (fun (s : Unit) (_ : OrderEvent) => s) 0 (98/100)
        ⟨0, 0, 0⟩ () (some (.buySize (2000/10))) 10).event = some .failed :=
  ⟨c9_take_profit_variant_skips_cash_check.1 _ _ _ _ _ rfl (by decide) (by decide)
      (by norm_num),
   c9_take_profit_variant_skips_cash_check.2.1 _ _ _ _ _ _ rfl (by norm_num),
   c9_take_profit_variant_skips_cash_check.2.2.1 _ _ _ _ _ rfl (by norm_num),
   (c9_take_profit_variant_skips_cash_check.2.2.2 _ _ _ _ _ _ _ _ (by norm_num)).1,
   (c9_take_profit_variant_skips_cash_check.2.2.2 _ _ _ _ _ _ _ _ (by norm_num)).2⟩

/-- C10: in the periodic-investment + take-profit variant, a bar whose step
submits the take-profit sell returns immediately: the monthly gate is not
evaluated and `last_investment_month` is untouched even on an eligible day, so
after the sell completes a monthly buy can still fire later in the same
calendar month — exhibited on a concrete four-bar run whose take-profit sell
lands on an eligible June day and whose June buy then fires the next bar. -/
theorem c10_take_profit_return_preempts_gate :
    (∀ (p : SmartAciAndTakeProfitStrategy.Params)
        (s : SmartAciAndTakeProfitStrategy.State) (buyPrice : ℚ) (d : SimDate)
        (price ma : ℚ),
      s.order = none → (price - buyPrice) / buyPrice ≥ p.take_profit_pct →
      SmartAciAndTakeProfitStrategy.next p s (some buyPrice) d price ma
        = ({ s with order := some (.close .takeProfit) }, some (.close .takeProfit)))
    ∧ (∀ (p : SmartAciAndTakeProfitStrategy.Params)
        (s : SmartAciAndTakeProfitStrategy.State) (buyPrice : ℚ) (d : SimDate)
        (price ma : ℚ),
      s.order = none → (price - buyPrice) / buyPrice ≥ p.take_profit_pct →
      (SmartAciAndTakeProfitStrategy.next p s (some buyPrice) d price ma).1.last_investment_month
        = s.last_investment_month)
    ∧ ((List.foldl (SmartAciAndTakeProfitStrategy.procBar ⟨1/10, 1, 1000⟩ 0 (98/100))
          ⟨⟨10000, 0, 0⟩, SmartAciAndTakeProfitStrategy.initState, []⟩
          [⟨⟨2021, 5, 3⟩, 10, 11⟩, ⟨⟨2021, 5, 4⟩, 10, 9⟩, ⟨⟨2021, 6, 1⟩, 12, 9⟩]).strat.order
        = some (.close .takeProfit)
      ∧ (List.foldl (SmartAciAndTakeProfitStrategy.procBar ⟨1/10, 1, 1000⟩ 0 (98/100))
          ⟨⟨10000, 0, 0⟩, SmartAciAndTakeProfitStrategy.initState, []⟩
          [⟨⟨2021, 5, 3⟩, 10, 11⟩, ⟨⟨2021, 5, 4⟩, 10, 9⟩,
            ⟨⟨2021, 6, 1⟩, 12, 9⟩]).strat.last_investment_month = 5
      ∧ (List.foldl (SmartAciAndTakeProfitStrategy.procBar ⟨1/10, 1, 1000⟩ 0 (98/100))
          ⟨⟨10000, 0, 0⟩, SmartAciAndTakeProfitStrategy.initState, []⟩
          [⟨⟨2021, 5, 3⟩, 10, 11⟩, ⟨⟨2021, 5, 4⟩, 10, 9⟩, ⟨⟨2021, 6, 1⟩, 12, 9⟩,
            ⟨⟨2021, 6, 2⟩, 12, 13⟩]).strat.order = some (.buySize (1000/12))
      ∧ (List.foldl (SmartAciAndTakeProfitStrategy.procBar ⟨1/10, 1, 1000⟩ 0 (98/100))
          ⟨⟨10000, 0, 0⟩, SmartAciAndTakeProfitStrategy.initState, []⟩
          [⟨⟨2021, 5, 3⟩, 10, 11⟩, ⟨⟨2021, 5, 4⟩, 10, 9⟩, ⟨⟨2021, 6, 1⟩, 12, 9⟩,
            ⟨⟨2021, 6, 2⟩, 12, 13⟩]).strat.last_investment_month = 6) := by
  refine ⟨?_, ?_, ?_⟩
  · intro p s buyPrice d price ma h0 h1
    simp [SmartAciAndTakeProfitStrategy.next, h0, h1]
  · intro p s buyPrice d price ma h0 h1
    simp [SmartAciAndTakeProfitStrategy.next, h0, h1]
  · norm_num [List.foldl, SmartAciAndTakeProfitStrategy.procBar, resolveOrder,
      SmartAciAndTakeProfitStrategy.next, SmartAciAndTakeProfitStrategy.notify_order,
      SmartAciAndTakeProfitStrategy.initState, Broker.applyBuy, Broker.applySell,
      Broker.position, pushLog, logOf]

/-- C10 witness: the take-profit preemption at a concrete eligible June day
whose monthly stamp still reads May. -/
theorem c10_take_profit_return_preempts_gate_witness :
    SmartAciAndTakeProfitStrategy.next ⟨1/10, 1, 1000⟩ ⟨none, 5⟩ (some 10)
        ⟨2021, 6, 1⟩ 12 9
      = (⟨some (.close .takeProfit), 5⟩, some (.close .takeProfit))
    ∧ (SmartAciAndTakeProfitStrategy.next ⟨1/10, 1, 1000⟩ ⟨none, 5⟩ (some 10)
        ⟨2021, 6, 1⟩ 12 9).1.last_investment_month = 5 :=
  ⟨c10_take_profit_return_preempts_gate.1 _ _ _ _ _ _ rfl (by norm_num),
   c10_take_profit_return_preempts_gate.2.1 _ _ _ _ _ _ rfl (by norm_num)⟩

end FundStrategyCn
